import Mathlib

/-!
# Verification of the Hokm game room orchestrator

Shallow embedding of the Go sources of the Hokm backend (package `game`,
package `handlers`, package `utils`) and proofs about them.

Modelling conventions:
* Go slices become `List`, Go `map[string]int` becomes a total function
  `String → Nat` (a missing key reads as 0, matching the Go zero value);
  `map[string]*SavedPlayerData` becomes `String → Option SavedPlayerData`.
* `*Player` pointers stored in the game (`TrumpPlayer`, the entries of
  `Players`) are modelled by the player id plus a lookup in the player list:
  the Go code only ever mutates the `Hand`, `Conn` and `Connected` fields of
  pointed-to players, and all pointer comparisons in the modelled code are by
  `ID`, so an id-lookup is observationally equal whenever ids are unique.
  A nil-pointer dereference (a Go panic) corresponds to the lookup falling
  back to `defaultPlayer`; theorems carry hypotheses that exclude this case.
* `room.Players` and `room.Game.Players` hold the same player objects in the
  same order during play (both are appended together at registration), so the
  game-level model `GameState` keeps a single list `players`.  The
  leave/replace lifecycle, where the two lists genuinely differ, is modelled
  separately on `Room`.
* Network writes, logging and `time.Sleep` are ignored: they do not change
  the room or game state.  `ShuffleDeck` is randomized, so functions that
  shuffle take an explicit `shuffle : List Card → List Card` parameter.
* Go `int` becomes `Int` where negative values can occur (card values,
  indices that use the -1 sentinel), `Nat` for pure counters.
-/

/-- Card (game/game.go): suit, rank, numeric value. -/
structure Card where
  suit : String
  rank : String
  value : Int
deriving DecidableEq, Repr

/-- Player (game/game.go).  The websocket connection handle is omitted;
`connected` keeps the liveness flag. -/
structure Player where
  id : String
  name : String
  team : String
  hand : List Card
  connected : Bool
  index : Int
deriving DecidableEq, Repr

/-- SavedPlayerData (game/game.go): frozen snapshot of a seat that left. -/
structure SavedPlayerData where
  playerId : String
  hand : List Card
  team : String
  index : Int
  isLeaving : Bool
  roomId : String
deriving DecidableEq, Repr

def defaultCard : Card := { suit := "", rank := "", value := 0 }

def defaultPlayer : Player :=
  { id := "", name := "", team := "", hand := [], connected := false, index := 0 }

/-- Game (game/game.go).  `trumpPlayerId` models the `TrumpPlayer *Player`
pointer (see module comment); `none` models a nil pointer. -/
structure GameState where
  deck : List Card
  trumpSuit : String
  players : List Player
  currentTrick : List Card
  trickPlayOrder : List Player
  scores : String → Nat
  roundScores : String → Nat
  currentPlayerIndex : Int
  dealerIndex : Int
  trumpPlayerId : Option String
  currentRound : Nat
  isGameOver : Bool

/-- NewGame (game/game.go). -/
def newGame : GameState :=
  { deck := [], trumpSuit := "", players := [], currentTrick := [],
    trickPlayOrder := [], scores := fun _ => 0, roundScores := fun _ => 0,
    currentPlayerIndex := 0, dealerIndex := 0, trumpPlayerId := none,
    currentRound := 1, isGameOver := false }

/-- The linear scan Go writes as `for _, p := range players` with an `ID`
comparison and an early return (used by ValidateCardPlay and others). -/
def findPlayerById : List Player → String → Option Player
  | [], _ => none
  | p :: ps, pid => if p.id = pid then some p else findPlayerById ps pid

/-- First index of the player with the given id, `none` if absent
(the loop inside processMessage that sets `CurrentPlayerIndex`). -/
def firstIdxById : List Player → String → Option Nat
  | [], _ => none
  | p :: ps, pid =>
    if p.id = pid then some 0 else (firstIdxById ps pid).map (· + 1)

/-- indexOfPlayer (handlers/websocket.go): index of the first player whose
`ID` equals the given player id, -1 if none. -/
def indexOfPlayerId (players : List Player) (pid : String) : Int :=
  match firstIdxById players pid with
  | some i => (i : Int)
  | none => -1

/-- Replace the first player with the given id (a Go in-place mutation of the
pointed-to player object). -/
def updateFirstById : List Player → String → (Player → Player) → List Player
  | [], _, _ => []
  | p :: ps, pid, f => if p.id = pid then f p :: ps else p :: updateFirstById ps pid f

/-- Remove the first player with the given id (the
`append(players[:i], players[i+1:]...)` idiom). -/
def removeFirstById : List Player → String → List Player
  | [], _ => []
  | p :: ps, pid => if p.id = pid then ps else p :: removeFirstById ps pid

/-- Dereference of the `TrumpPlayer` pointer: lookup of the trump player id in
the player list.  `defaultPlayer` stands for a nil dereference. -/
def GameState.trumpPlayerRef (g : GameState) : Player :=
  match g.trumpPlayerId with
  | some tid => (findPlayerById g.players tid).getD defaultPlayer
  | none => defaultPlayer

/-- getOppositeTeam (handlers/websocket.go). -/
def getOppositeTeam (team : String) : String :=
  if team = "team1" then "team2" else "team1"

/-- determineTeam (handlers/websocket.go): team from seat-count parity. -/
def determineTeam (playerCount : Nat) : String :=
  if playerCount % 2 = 0 then "team2" else "team1"

/-- `l.getD j defaultCard`, the Go read `trick[j]`. -/
def nthCard (l : List Card) (j : Nat) : Card := l.getD j defaultCard

/-- ValidateCardPlay (game/game.go): the player must exist, hold a card with
the same suit and rank, and follow the leading suit (`CurrentTrick[0].Suit`,
read when the trick is non-empty) when able to. -/
def GameState.validateCardPlay (g : GameState) (playerID : String) (card : Card) : Bool :=
  match findPlayerById g.players playerID with
  | none => false
  | some player =>
    if (player.hand.any fun c => c.suit = card.suit ∧ c.rank = card.rank) = false then
      false
    else if 0 < g.currentTrick.length then
      if card.suit ≠ (nthCard g.currentTrick 0).suit ∧
          (player.hand.any fun c => c.suit = (nthCard g.currentTrick 0).suit) then
        false
      else true
    else true

/-- PlayCard (game/game.go).  On success the card joins the trick, the acting
player joins the play order, and the turn advances (`NextTurn` inlined).  The
Go code reads `g.Players[g.CurrentPlayerIndex]` twice (as `currentPlayer` for
the turn check, as `player` for the play-order append); the read is inlined
here both times. -/
def GameState.playCard (g : GameState) (playerID : String) (card : Card) :
    Except String GameState :=
  if g.players.length = 0 then Except.error "no players in the game"
  else if (g.players.getD g.currentPlayerIndex.toNat defaultPlayer).id ≠ playerID then
    Except.error "it is not your turn"
  else if g.validateCardPlay playerID card = false then Except.error "invalid card play"
  else
    Except.ok { g with
      trickPlayOrder :=
        g.trickPlayOrder ++ [g.players.getD g.currentPlayerIndex.toNat defaultPlayer],
      currentTrick := g.currentTrick ++ [card],
      currentPlayerIndex := (g.currentPlayerIndex + 1) % (g.players.length : Int) }

/-- ResetTrick (game/game.go). -/
def GameState.resetTrick (g : GameState) : GameState :=
  { g with currentTrick := [], trickPlayOrder := [] }

/-- UpdateScores (game/game.go): `Scores[team] += tricksWon`. -/
def GameState.updateScores (g : GameState) (team : String) (tricksWon : Nat) : GameState :=
  { g with scores := fun t => if t = team then g.scores t + tricksWon else g.scores t }

/-- The loop body of DetermineTrickWinner (game/game.go): walk the trick with
the current winning card, its index, and the position of the visited card. -/
def findWinnerAux (trump lead : String) :
    List Card → Card → Nat → Nat → Card × Nat
  | [], w, wi, _ => (w, wi)
  | c :: cs, w, wi, i =>
    if c.suit = trump then
      if w.suit ≠ trump then findWinnerAux trump lead cs c i (i + 1)
      else if w.value < c.value then findWinnerAux trump lead cs c i (i + 1)
      else findWinnerAux trump lead cs w wi (i + 1)
    else if c.suit = lead ∧ w.suit ≠ trump then
      if w.value < c.value then findWinnerAux trump lead cs c i (i + 1)
      else findWinnerAux trump lead cs w wi (i + 1)
    else findWinnerAux trump lead cs w wi (i + 1)

/-- DetermineTrickWinner (game/game.go).  The Go `players` parameter is unused
by the function body and omitted.  The winner is read from `TrickPlayOrder` at
the winning card index. -/
def GameState.determineTrickWinner (g : GameState) : String :=
  if g.currentTrick.length = 0 ∨ g.trickPlayOrder.length ≠ g.currentTrick.length then ""
  else
    let lead := (nthCard g.currentTrick 0).suit
    let r := findWinnerAux g.trumpSuit lead g.currentTrick (nthCard g.currentTrick 0) 0 0
    if r.2 < g.trickPlayOrder.length then (g.trickPlayOrder.getD r.2 defaultPlayer).id
    else ""

/-! ## Deck construction (utils/helpers.go) -/

def validSuits : List String := ["hearts", "diamonds", "clubs", "spades"]

def validRanks : List String :=
  ["2", "3", "4", "5", "6", "7", "8", "9", "10", "J", "Q", "K", "A"]

/-- The `rankValues` map used by NewDeck and isValidValue. -/
def rankValue : String → Option Int
  | "2" => some 2
  | "3" => some 3
  | "4" => some 4
  | "5" => some 5
  | "6" => some 6
  | "7" => some 7
  | "8" => some 8
  | "9" => some 9
  | "10" => some 10
  | "J" => some 11
  | "Q" => some 12
  | "K" => some 13
  | "A" => some 14
  | _ => none

/-- NewDeck (utils/helpers.go): 52 cards, suits outer loop, ranks inner. -/
def newDeck : List Card :=
  (validSuits.map fun s =>
    validRanks.map fun r => { suit := s, rank := r, value := (rankValue r).getD 0 }).flatten

/-- isValidSuit (handlers/websocket.go). -/
def isValidSuit (suit : String) : Bool := validSuits.contains suit

/-- isValidRank (handlers/websocket.go). -/
def isValidRank (rank : String) : Bool := validRanks.contains rank

/-- isValidValue (handlers/websocket.go). -/
def isValidValue (rank : String) (value : Int) : Bool :=
  match rankValue rank with
  | some v => value = v
  | none => false

/-! ## The websocket message handler (handlers/websocket.go) -/

/-- The decoded `data` field of a WSMessage after Go type assertions: a card
payload (`map[string]interface{}` with Suit/Rank/Value keys, Value already
truncated from float64 to int), a plain string, an absent payload, or any
other shape on which the type assertion fails. -/
inductive MsgData where
  | card (suit rank : String) (value : Int)
  | str (s : String)
  | empty
  | malformed
deriving DecidableEq, Repr

/-- Remove the first card with the same suit and rank (the hand-removal loop
in the play_card case of processMessage). -/
def removeFirstCard : List Card → Card → List Card
  | [], _ => []
  | c :: cs, card =>
    if c.suit = card.suit ∧ c.rank = card.rank then cs else c :: removeFirstCard cs card

/-- Clear every hand (`player.Hand = []game.Card{}` loop in
restartGameForNextRound). -/
def clearHands (players : List Player) : List Player :=
  players.map fun p => { p with hand := [] }

/-- roundPoints: the switch in the play_card round-end block of
processMessage.  2 points for a trump-team sweep (Kot), 3 for a sweep against
the trump team (Trump Kot), otherwise 1. -/
def roundPoints (trumpTeam roundWinner : String) (losingScore : Nat) : Nat :=
  if losingScore = 0 ∧ roundWinner = trumpTeam then 2
  else if losingScore = 0 ∧ roundWinner = getOppositeTeam trumpTeam then 3
  else 1

/-- The trump-rotation if-block of restartGameForNextRound: when the round
winner is the team opposite the trump chooser, the role moves to the player
at the next index modulo the player count; otherwise the id is unchanged
(the Go block mutates only `TrumpPlayer`). -/
def rotatedTrumpId (players : List Player) (tp : Player) (roundWinner : String)
    (cur : Option String) : Option String :=
  if roundWinner = getOppositeTeam tp.team then
    let currentTrumpIndex := indexOfPlayerId players tp.id
    let nextTrumpIndex := ((currentTrumpIndex + 1) % (players.length : Int)).toNat
    some (players.getD nextTrumpIndex defaultPlayer).id
  else cur

/-- restartGameForNextRound (handlers/websocket.go).  Bumps the round, resets
the trick tally, rebuilds and reshuffles the deck, clears hands, rotates the
trump chooser to the next seat when the opposite team won, then runs
utils.DealCards with isInitialGame=false (which resets the deck to a fresh
shuffled 52 and gives the trump chooser 5 cards) and puts the turn on the
trump chooser. -/
def restartGameForNextRound (shuffle : List Card → List Card) (g : GameState)
    (roundWinner : String) : GameState :=
  let g1 : GameState :=
    { g with currentRound := g.currentRound + 1,
             scores := fun _ => 0,
             deck := shuffle newDeck,
             players := clearHands g.players }
  let g2 : GameState :=
    { g1 with trumpPlayerId :=
        rotatedTrumpId g1.players g1.trumpPlayerRef roundWinner g1.trumpPlayerId }
  -- utils.DealCards, isInitialGame = false: the deck handed in is discarded,
  -- a fresh deck is built and shuffled, and the trump chooser draws 5 cards.
  let deck := shuffle newDeck
  let tp := g2.trumpPlayerRef
  let players :=
    updateFirstById g2.players tp.id (fun p => { p with hand := p.hand ++ deck.take 5 })
  let g3 : GameState := { g2 with players := players, deck := deck.drop 5 }
  { g3 with currentPlayerIndex := indexOfPlayerId g3.players g3.trumpPlayerRef.id }

/-- The round-winner decision of the round-end block: team1 if its tally
reached 2, else team2. -/
def roundWinnerOf (g : GameState) : String :=
  if 2 ≤ g.scores "team1" then "team1" else "team2"

/-- The loser tally read in the round-end block. -/
def losingScoreOf (g : GameState) : Nat :=
  if 2 ≤ g.scores "team1" then g.scores "team2" else g.scores "team1"

/-- `RoundScores[roundWinner] += roundPoints` of the round-end block. -/
def awardRoundPoints (g : GameState) : GameState :=
  { g with roundScores := fun t =>
      if t = roundWinnerOf g then
        g.roundScores t +
          roundPoints g.trumpPlayerRef.team (roundWinnerOf g) (losingScoreOf g)
      else g.roundScores t }

/-- The round-end block of the play_card case (processMessage): decide the
round winner and its points, add them to the Round scores, then either end
the match (a team reached 7 round points) or restart for the next round and
reset the trick.  `g` is the state whose trick tally was just updated. -/
def resolveRoundEnd (shuffle : List Card → List Card) (g : GameState) : GameState :=
  let g2 := awardRoundPoints g
  if 7 ≤ g2.roundScores "team1" ∨ 7 ≤ g2.roundScores "team2" then
    { g2 with isGameOver := true }
  else
    (restartGameForNextRound shuffle g2 (roundWinnerOf g)).resetTrick

/-- The winning-team scan of the play_card case: team of the first player
whose id is the winner id, "" when no player matches. -/
def winningTeamOf (players : List Player) (winnerID : String) : String :=
  match findPlayerById players winnerID with
  | some p => p.team
  | none => ""

/-- The loop that hands the lead to the trick winner: set the current-player
index to the winner's position in the player list (unchanged if absent). -/
def setLeadToWinner (g : GameState) (players : List Player) (winnerID : String) :
    GameState :=
  match firstIdxById players winnerID with
  | some i => { g with currentPlayerIndex := (i : Int) }
  | none => g

/-- The trick-completion tail of the play_card case (processMessage): when the
trick holds as many cards as there are players, find the winner, credit the
winning team with one trick, and either resolve the round (a tally reached 2)
or hand the lead to the trick winner and reset the trick. -/
def afterTrickCheck (shuffle : List Card → List Card) (g : GameState) : GameState :=
  if g.currentTrick.length = g.players.length then
    let winnerID := g.determineTrickWinner
    let winningTeam := winningTeamOf g.players winnerID
    if winningTeam = "" then g
    else
      let g1 := g.updateScores winningTeam 1
      if 2 ≤ g1.scores "team1" ∨ 2 ≤ g1.scores "team2" then
        resolveRoundEnd shuffle g1
      else
        (setLeadToWinner g1 g.players winnerID).resetTrick
  else g

/-- The play_card case of processMessage: validate the payload, run
Game.PlayCard, remove the card from the acting player's hand, then run the
trick-completion logic.  Every rejection path returns the state unchanged. -/
def processPlayCard (shuffle : List Card → List Card) (g : GameState)
    (playerId : String) (data : MsgData) : GameState :=
  match data with
  | MsgData.card suit rank value =>
    if isValidSuit suit = false then g
    else if isValidRank rank = false then g
    else if isValidValue rank value = false then g
    else
      let card : Card := { suit := suit, rank := rank, value := value }
      match g.playCard playerId card with
      | Except.error _ => g
      | Except.ok g1 =>
        let players2 :=
          updateFirstById g1.players playerId
            (fun p => { p with hand := removeFirstCard p.hand card })
        let g2 : GameState := { g1 with players := players2 }
        afterTrickCheck shuffle g2
  | _ => g

/-- One pass of `for _, p := range room.Players` dealing `n` cards to every
player except the trump chooser (batch 1 of the choose_trump case). -/
def dealBatchSkip (tpId : String) (n : Nat) :
    List Player → List Card → List Player × List Card
  | [], deck => ([], deck)
  | p :: ps, deck =>
    if p.id = tpId then
      let r := dealBatchSkip tpId n ps deck
      (p :: r.1, r.2)
    else
      let r := dealBatchSkip tpId n ps (deck.drop n)
      ({ p with hand := p.hand ++ deck.take n } :: r.1, r.2)

/-- One pass dealing `n` cards to every player (batches 2 and 3 of the
choose_trump case). -/
def dealBatchAll (n : Nat) : List Player → List Card → List Player × List Card
  | [], deck => ([], deck)
  | p :: ps, deck =>
    let r := dealBatchAll n ps (deck.drop n)
    ({ p with hand := p.hand ++ deck.take n } :: r.1, r.2)

/-- The choose_trump case of processMessage: only the trump chooser may pick;
the suit is stored, the three other hands are cleared and dealt 5 cards each,
then two batches of 4 cards go to all four players, and the turn is set to
the trump chooser. -/
def processChooseTrump (g : GameState) (playerId suit : String) : GameState :=
  let tp := g.trumpPlayerRef
  if playerId ≠ tp.id then g
  else
    let g1 : GameState := { g with trumpSuit := suit }
    let players1 := g1.players.map fun p => if p.id ≠ tp.id then { p with hand := [] } else p
    let r1 := dealBatchSkip tp.id 5 players1 g1.deck
    let r2 := dealBatchAll 4 r1.1 r1.2
    let r3 := dealBatchAll 4 r2.1 r2.2
    let g2 : GameState := { g1 with players := r3.1, deck := r3.2 }
    { g2 with currentPlayerIndex := indexOfPlayerId g2.players tp.id }

/-- handlePlayerLeave seen from the game state: the leaver goes out of the
active player list and the pause flag (IsGameOver) is set.  The room-level
SavedPlayers bookkeeping is modelled on `Room` below. -/
def handlePlayerLeaveG (g : GameState) (player : Player) : GameState :=
  { g with players := removeFirstById g.players player.id, isGameOver := true }

/-- processMessage (handlers/websocket.go): drop messages from disconnected
players, answer every action but reconnect with a pause notice while the
game is over (no state change), otherwise dispatch on the action. -/
def processMessage (shuffle : List Card → List Card) (g : GameState)
    (player : Player) (action : String) (data : MsgData) : GameState :=
  if player.connected = false then g
  else if g.isGameOver = true ∧ action ≠ "reconnect" then g
  else if action = "play_card" then processPlayCard shuffle g player.id data
  else if action = "choose_trump" then
    match data with
    | MsgData.str suit => processChooseTrump g player.id suit
    | _ => g
  else if action = "leave_game" then handlePlayerLeaveG g player
  else g

/-! ## Room-level seating, leave and replacement (handlers/websocket.go) -/

/-- Room: active seats, the two player lists that share the same player
objects in Go (`Players` and `Game.Players`), the saved-seat table and the
pause flag of the room game. -/
structure Room where
  id : String
  players : List Player
  gamePlayers : List Player
  savedPlayers : String → Option SavedPlayerData
  isGameOver : Bool

/-- Insertion into a list sorted by seat index (`sort.Slice` comparator
`Players[i].Index < Players[j].Index`). -/
def insertByIndex (p : Player) : List Player → List Player
  | [] => [p]
  | q :: qs => if p.index < q.index then p :: q :: qs else q :: insertByIndex p qs

/-- Sort players by seat index. -/
def sortByIndex : List Player → List Player
  | [] => []
  | p :: ps => insertByIndex p (sortByIndex ps)

/-- The new-seat path of registerPlayer: team from seat-count parity, seat
index = current seat count, empty hand; the player joins both lists. -/
def registerNewPlayer (room : Room) (pid name : String) : Player × Room :=
  let team := determineTeam room.players.length
  let newPlayer : Player :=
    { id := pid, name := name, team := team, hand := [], connected := true,
      index := (room.players.length : Int) }
  (newPlayer,
    { room with players := room.players ++ [newPlayer],
                gamePlayers := room.gamePlayers ++ [newPlayer] })

/-- The SavedPlayerData snapshot built by handlePlayerLeave. -/
def savedDataOf (room : Room) (player : Player) : SavedPlayerData :=
  { playerId := player.id, hand := player.hand, team := player.team,
    index := player.index, isLeaving := true, roomId := room.id }

/-- handlePlayerLeave (handlers/websocket.go): snapshot the seat, remove the
player from the active list, pause the game. -/
def Room.handlePlayerLeave (room : Room) (player : Player) : Room :=
  { room with
      savedPlayers := fun k =>
        if k = player.id then some (savedDataOf room player) else room.savedPlayers k,
      players := removeFirstById room.players player.id,
      isGameOver := true }

/-- handleReplacement (handlers/websocket.go): refuse a mismatched room id;
otherwise rebuild the seat exactly from the saved data (same id, team, hand,
seat index), insert it into the room list sorted by index, replace the stale
entry in the game list, drop the saved snapshot, and clear the pause flag
when the room is back to 4 seats. -/
def handleReplacement (room : Room) (savedData : SavedPlayerData) (counter : Nat) :
    Option Player × Room :=
  if room.id ≠ savedData.roomId then (none, room)
  else
    let newPlayer : Player :=
      { id := savedData.playerId, name := "Player" ++ toString (counter + 1),
        team := savedData.team, hand := savedData.hand, connected := true,
        index := savedData.index }
    let roomPlayers := sortByIndex (room.players ++ [newPlayer])
    let gamePlayers :=
      updateFirstById room.gamePlayers savedData.playerId (fun _ => newPlayer)
    let saved2 := fun k => if k = savedData.playerId then none else room.savedPlayers k
    let isOver := if roomPlayers.length = 4 then false else room.isGameOver
    (some newPlayer,
      { room with players := roomPlayers, gamePlayers := gamePlayers,
                  savedPlayers := saved2, isGameOver := isOver })

/-! ## Helper lemmas -/

theorem findPlayerById_getD (players : List Player) (pid : String) (k : Nat)
    (hnd : (players.map fun p => p.id).Nodup) (hk : k < players.length)
    (hid : (players.getD k defaultPlayer).id = pid) :
    findPlayerById players pid = some (players.getD k defaultPlayer) := by
  induction players generalizing k with
  | nil => simp at hk
  | cons p ps ih =>
    rw [List.map_cons, List.nodup_cons] at hnd
    match k with
    | 0 =>
      simp only [List.getD_cons_zero] at hid ⊢
      simp [findPlayerById, hid]
    | k + 1 =>
      have hk2 : k < ps.length := by simpa using hk
      have hid2 : (ps.getD k defaultPlayer).id = pid := by
        simpa only [List.getD_cons_succ] using hid
      have hmem : (ps.getD k defaultPlayer).id ∈ ps.map fun p => p.id := by
        rw [List.getD_eq_getElem ps defaultPlayer hk2]
        exact List.mem_map_of_mem _ (List.getElem_mem hk2)
      have hne : ¬ p.id = pid := by
        intro he
        apply hnd.1
        rw [he, ← hid2]
        exact hmem
      simp only [List.getD_cons_succ, findPlayerById, if_neg hne]
      exact ih k hnd.2 hk2 hid2

theorem validateCardPlay_some (g : GameState) (pid : String) (card : Card)
    (player : Player) (hfind : findPlayerById g.players pid = some player) :
    g.validateCardPlay pid card =
      (if (player.hand.any fun c => c.suit = card.suit ∧ c.rank = card.rank) = false then
        false
      else if 0 < g.currentTrick.length then
        if card.suit ≠ (nthCard g.currentTrick 0).suit ∧
            (player.hand.any fun c => c.suit = (nthCard g.currentTrick 0).suit) then
          false
        else true
      else true) := by
  unfold GameState.validateCardPlay
  rw [hfind]

theorem validateCardPlay_iff (g : GameState) (pid : String) (card : Card)
    (player : Player) (hfind : findPlayerById g.players pid = some player) :
    g.validateCardPlay pid card = true ↔
      ((∃ c ∈ player.hand, c.suit = card.suit ∧ c.rank = card.rank) ∧
       (0 < g.currentTrick.length → card.suit ≠ (nthCard g.currentTrick 0).suit →
          ∀ c ∈ player.hand, c.suit ≠ (nthCard g.currentTrick 0).suit)) := by
  rw [validateCardPlay_some g pid card player hfind]
  by_cases hc : (player.hand.any fun c => c.suit = card.suit ∧ c.rank = card.rank) = true
  · rw [hc]
    simp only [Bool.true_eq_false, if_false]
    have hcex : ∃ c ∈ player.hand, c.suit = card.suit ∧ c.rank = card.rank := by
      obtain ⟨c, hcm, hcp⟩ := List.any_eq_true.mp hc
      exact ⟨c, hcm, by simpa using hcp⟩
    by_cases hlen : 0 < g.currentTrick.length
    · rw [if_pos hlen]
      by_cases hfollow : card.suit ≠ (nthCard g.currentTrick 0).suit ∧
          (player.hand.any fun c => c.suit = (nthCard g.currentTrick 0).suit) = true
      · rw [if_pos hfollow]
        simp only [Bool.false_eq_true, false_iff, not_and]
        intro _ hall
        obtain ⟨c, hcm, hcs⟩ := List.any_eq_true.mp hfollow.2
        exact hall hlen hfollow.1 c hcm (by simpa using hcs)
      · rw [if_neg hfollow]
        simp only [true_iff]
        refine ⟨hcex, ?_⟩
        intro _ hsuit c hcm hcs
        exact hfollow ⟨hsuit, List.any_eq_true.mpr ⟨c, hcm, by simpa using hcs⟩⟩
    · rw [if_neg hlen]
      simp only [true_iff]
      exact ⟨hcex, fun h => absurd h hlen⟩
  · rw [Bool.not_eq_true] at hc
    rw [hc]
    simp only [if_true, Bool.false_eq_true, false_iff, not_and]
    intro hex _
    exfalso
    obtain ⟨c, hcm, h1, h2⟩ := hex
    have hany : (player.hand.any fun c => c.suit = card.suit ∧ c.rank = card.rank) = true :=
      List.any_eq_true.mpr ⟨c, hcm, by simp [h1, h2]⟩
    rw [hc] at hany
    exact absurd hany (by simp)

theorem playCard_ok_iff (g : GameState) (pid : String) (card : Card)
    (h1 : g.currentPlayerIndex.toNat < g.players.length) :
    (∃ g2, g.playCard pid card = Except.ok g2) ↔
      ((g.players.getD g.currentPlayerIndex.toNat defaultPlayer).id = pid ∧
        g.validateCardPlay pid card = true) := by
  have hlen : ¬ g.players.length = 0 := by omega
  unfold GameState.playCard
  rw [if_neg hlen]
  by_cases hid : (g.players.getD g.currentPlayerIndex.toNat defaultPlayer).id = pid
  · rw [if_neg (fun h => h hid)]
    by_cases hv : g.validateCardPlay pid card = true
    · rw [if_neg (by simp [hv])]
      exact ⟨fun _ => ⟨hid, hv⟩, fun _ => ⟨_, rfl⟩⟩
    · rw [Bool.not_eq_true] at hv
      rw [if_pos hv]
      constructor
      · rintro ⟨g2, hg2⟩
        exact absurd hg2 (by simp)
      · rintro ⟨_, hv2⟩
        rw [hv2] at hv
        exact absurd hv (by simp)
  · rw [if_pos hid]
    constructor
    · rintro ⟨g2, hg2⟩
      exact absurd hg2 (by simp)
    · rintro ⟨hid2, _⟩
      exact absurd hid2 hid

/-! ## C2: play legality -/

/-- C2: `PlayCard(playerID, card)` succeeds if and only if (a) `playerID` is
the id of the player at the current-turn index, (b) that player's hand holds a
card with the same suit and rank, and (c) whenever the current trick is
non-empty and the card's suit differs from the suit of the first card of the
trick, the player's hand holds no card of that led suit (so a player with no
card of the led suit may play anything, trump included). -/
theorem playCard_succeeds_iff (g : GameState) (pid : String) (card : Card)
    (h0 : 0 ≤ g.currentPlayerIndex)
    (h1 : g.currentPlayerIndex.toNat < g.players.length)
    (hnd : (g.players.map fun p => p.id).Nodup) :
    (∃ g2, g.playCard pid card = Except.ok g2) ↔
      ((g.players.getD g.currentPlayerIndex.toNat defaultPlayer).id = pid ∧
       (∃ c ∈ (g.players.getD g.currentPlayerIndex.toNat defaultPlayer).hand,
          c.suit = card.suit ∧ c.rank = card.rank) ∧
       (0 < g.currentTrick.length → card.suit ≠ (nthCard g.currentTrick 0).suit →
          ∀ c ∈ (g.players.getD g.currentPlayerIndex.toNat defaultPlayer).hand,
            c.suit ≠ (nthCard g.currentTrick 0).suit)) := by
  rw [playCard_ok_iff g pid card h1]
  constructor
  · rintro ⟨hid, hv⟩
    have hfind := findPlayerById_getD g.players pid _ hnd h1 hid
    rw [validateCardPlay_iff g pid card _ hfind] at hv
    exact ⟨hid, hv.1, hv.2⟩
  · rintro ⟨hid, hb, hcnd⟩
    have hfind := findPlayerById_getD g.players pid _ hnd h1 hid
    exact ⟨hid, (validateCardPlay_iff g pid card _ hfind).mpr ⟨hb, hcnd⟩⟩

def witCard : Card := { suit := "hearts", rank := "2", value := 2 }

def witPlayerA : Player :=
  { id := "1", name := "P1", team := "team2",
    hand := [witCard, { suit := "clubs", rank := "3", value := 3 }],
    connected := true, index := 0 }

def witPlayerB : Player :=
  { id := "2", name := "P2", team := "team1", hand := [], connected := true, index := 1 }

def gC2 : GameState :=
  { newGame with players := [witPlayerA, witPlayerB], currentPlayerIndex := 0 }

/-- Witness for `playCard_succeeds_iff` at a concrete game state. -/
theorem playCard_succeeds_iff_witness :
    ∃ g2, gC2.playCard "1" witCard = Except.ok g2 :=
  (playCard_succeeds_iff gC2 "1" witCard (by decide) (by decide) (by decide)).mpr
    ⟨rfl, ⟨witCard, by decide, by decide⟩, fun h => absurd h (by decide)⟩

/-! ## C1: trick-winner determination -/

theorem nthCard_cons_zero (c : Card) (l : List Card) : nthCard (c :: l) 0 = c := rfl

theorem nthCard_cons_succ (c : Card) (l : List Card) (j : Nat) :
    nthCard (c :: l) (j + 1) = nthCard l j := rfl

/-- Invariant of the DetermineTrickWinner loop after scanning the first `i`
cards of `full`: the current winning card `w` sits at position `wi`, and it is
the best trump card seen so far or, when no trump has been seen, the best
card of the led suit seen so far. -/
def WinInv (trump lead : String) (full : List Card) (i : Nat) (w : Card) (wi : Nat) : Prop :=
  wi < i ∧ nthCard full wi = w ∧
  ((w.suit = trump ∧
      ∀ j, j < i → (nthCard full j).suit = trump → (nthCard full j).value ≤ w.value) ∨
   (w.suit ≠ trump ∧ w.suit = lead ∧
      (∀ j, j < i → (nthCard full j).suit ≠ trump) ∧
      (∀ j, j < i → (nthCard full j).suit = lead → (nthCard full j).value ≤ w.value)))

theorem findWinnerAux_inv (trump lead : String) (cs : List Card) :
    ∀ (full : List Card) (i : Nat) (w : Card) (wi : Nat),
      i ≤ full.length → full.drop i = cs → WinInv trump lead full i w wi →
      WinInv trump lead full full.length
        (findWinnerAux trump lead cs w wi i).1 (findWinnerAux trump lead cs w wi i).2 := by
  induction cs with
  | nil =>
    intro full i w wi hle hdrop hinv
    have hlen : full.length - i = 0 := by
      have := congrArg List.length hdrop
      simpa [List.length_drop] using this
    have hi : i = full.length := by omega
    rw [← hi]
    simpa [findWinnerAux] using hinv
  | cons c cs ih =>
    intro full i w wi hle hdrop hinv
    have hlt : i < full.length := by
      by_contra hge
      rw [List.drop_eq_nil_of_le (by omega)] at hdrop
      exact List.cons_ne_nil _ _ hdrop.symm
    have heq : c :: cs = full[i] :: full.drop (i + 1) := by
      rw [← hdrop]
      exact List.drop_eq_getElem_cons hlt
    have hci : full[i] = c := by injection heq with h1 _; exact h1.symm
    have hcs : full.drop (i + 1) = cs := by injection heq with _ h2; exact h2.symm
    have hc : nthCard full i = c := by
      rw [nthCard, List.getD_eq_getElem full defaultCard hlt, hci]
    obtain ⟨hwilt, hwe, hdisj⟩ := hinv
    have hle2 : i + 1 ≤ full.length := by omega
    by_cases hct : c.suit = trump
    · by_cases hwt : w.suit = trump
      · by_cases hv : w.value < c.value
        · -- both trump, the new card is higher: select c at position i
          have hnew : WinInv trump lead full (i + 1) c i := by
            refine ⟨Nat.lt_succ_self i, hc, Or.inl ⟨hct, ?_⟩⟩
            intro j hj hjt
            rcases Nat.lt_succ_iff_lt_or_eq.mp hj with hj | hj
            · rcases hdisj with ⟨_, hmax⟩ | ⟨hn1, _, _, _⟩
              · exact le_of_lt (lt_of_le_of_lt (hmax j hj hjt) hv)
              · exact absurd hwt hn1
            · rw [hj, hc]
          have hres := ih full (i + 1) c i hle2 hcs hnew
          have haux : findWinnerAux trump lead (c :: cs) w wi i =
              findWinnerAux trump lead cs c i (i + 1) := by
            simp only [findWinnerAux, if_pos hct, if_neg (not_not_intro hwt), if_pos hv]
          rw [haux]
          exact hres
        · -- both trump, the old card stays
          have hnew : WinInv trump lead full (i + 1) w wi := by
            refine ⟨by omega, hwe, Or.inl ⟨hwt, ?_⟩⟩
            intro j hj hjt
            rcases Nat.lt_succ_iff_lt_or_eq.mp hj with hj | hj
            · rcases hdisj with ⟨_, hmax⟩ | ⟨hn1, _, _, _⟩
              · exact hmax j hj hjt
              · exact absurd hwt hn1
            · rw [hj, hc]
              exact le_of_not_lt hv
          have hres := ih full (i + 1) w wi hle2 hcs hnew
          have haux : findWinnerAux trump lead (c :: cs) w wi i =
              findWinnerAux trump lead cs w wi (i + 1) := by
            simp only [findWinnerAux, if_pos hct, if_neg (not_not_intro hwt), if_neg hv]
          rw [haux]
          exact hres
      · -- new trump while the old winner is not trump: select c
        have hnew : WinInv trump lead full (i + 1) c i := by
          refine ⟨Nat.lt_succ_self i, hc, Or.inl ⟨hct, ?_⟩⟩
          intro j hj hjt
          rcases Nat.lt_succ_iff_lt_or_eq.mp hj with hj | hj
          · rcases hdisj with ⟨hw1, _⟩ | ⟨_, _, hn3, _⟩
            · exact absurd hw1 hwt
            · exact absurd hjt (hn3 j hj)
          · rw [hj, hc]
        have hres := ih full (i + 1) c i hle2 hcs hnew
        have haux : findWinnerAux trump lead (c :: cs) w wi i =
            findWinnerAux trump lead cs c i (i + 1) := by
          simp only [findWinnerAux, if_pos hct, if_pos hwt]
        rw [haux]
        exact hres
    · by_cases hcl : c.suit = lead ∧ w.suit ≠ trump
      · by_cases hv : w.value < c.value
        · -- led suit, higher than the current non-trump winner: select c
          have hnew : WinInv trump lead full (i + 1) c i := by
            refine ⟨Nat.lt_succ_self i, hc, Or.inr ⟨hct, hcl.1, ?_, ?_⟩⟩
            · intro j hj
              rcases Nat.lt_succ_iff_lt_or_eq.mp hj with hj | hj
              · rcases hdisj with ⟨hw1, _⟩ | ⟨_, _, hn3, _⟩
                · exact absurd hw1 hcl.2
                · exact hn3 j hj
              · rw [hj, hc]; exact hct
            · intro j hj hjl
              rcases Nat.lt_succ_iff_lt_or_eq.mp hj with hj | hj
              · rcases hdisj with ⟨hw1, _⟩ | ⟨_, _, _, hn4⟩
                · exact absurd hw1 hcl.2
                · exact le_of_lt (lt_of_le_of_lt (hn4 j hj hjl) hv)
              · rw [hj, hc]
          have hres := ih full (i + 1) c i hle2 hcs hnew
          have haux : findWinnerAux trump lead (c :: cs) w wi i =
              findWinnerAux trump lead cs c i (i + 1) := by
            simp only [findWinnerAux, if_neg hct, if_pos hcl, if_pos hv]
          rw [haux]
          exact hres
        · -- led suit but not higher: the old winner stays
          have hnew : WinInv trump lead full (i + 1) w wi := by
            rcases hdisj with ⟨hw1, _⟩ | ⟨hn1, hn2, hn3, hn4⟩
            · exact absurd hw1 hcl.2
            refine ⟨by omega, hwe, Or.inr ⟨hn1, hn2, ?_, ?_⟩⟩
            · intro j hj
              rcases Nat.lt_succ_iff_lt_or_eq.mp hj with hj | hj
              · exact hn3 j hj
              · rw [hj, hc]; exact hct
            · intro j hj hjl
              rcases Nat.lt_succ_iff_lt_or_eq.mp hj with hj | hj
              · exact hn4 j hj hjl
              · rw [hj, hc]; exact le_of_not_lt hv
          have hres := ih full (i + 1) w wi hle2 hcs hnew
          have haux : findWinnerAux trump lead (c :: cs) w wi i =
              findWinnerAux trump lead cs w wi (i + 1) := by
            simp only [findWinnerAux, if_neg hct, if_pos hcl, if_neg hv]
          rw [haux]
          exact hres
      · -- neither trump nor a relevant led-suit card: the old winner stays
        have hnew : WinInv trump lead full (i + 1) w wi := by
          rcases hdisj with ⟨hw1, hmax⟩ | ⟨hn1, hn2, hn3, hn4⟩
          · refine ⟨by omega, hwe, Or.inl ⟨hw1, ?_⟩⟩
            intro j hj hjt
            rcases Nat.lt_succ_iff_lt_or_eq.mp hj with hj | hj
            · exact hmax j hj hjt
            · rw [hj, hc] at hjt
              exact absurd hjt hct
          · have hcnl : ¬ c.suit = lead := fun hl => hcl ⟨hl, hn1⟩
            refine ⟨by omega, hwe, Or.inr ⟨hn1, hn2, ?_, ?_⟩⟩
            · intro j hj
              rcases Nat.lt_succ_iff_lt_or_eq.mp hj with hj | hj
              · exact hn3 j hj
              · rw [hj, hc]; exact hct
            · intro j hj hjl
              rcases Nat.lt_succ_iff_lt_or_eq.mp hj with hj | hj
              · exact hn4 j hj hjl
              · rw [hj, hc] at hjl
                exact absurd hjl hcnl
        have hres := ih full (i + 1) w wi hle2 hcs hnew
        have haux : findWinnerAux trump lead (c :: cs) w wi i =
            findWinnerAux trump lead cs w wi (i + 1) := by
          simp only [findWinnerAux, if_neg hct, if_neg hcl]
        rw [haux]
        exact hres

theorem findWinnerAux_first (trump : String) (c0 : Card) (rest : List Card) :
    findWinnerAux trump c0.suit (c0 :: rest) c0 0 0 =
      findWinnerAux trump c0.suit rest c0 0 1 := by
  by_cases h : c0.suit = trump <;> simp [findWinnerAux, h]

theorem findWinnerAux_full (trump : String) (full : List Card) (hne : full ≠ []) :
    WinInv trump (nthCard full 0).suit full full.length
      (findWinnerAux trump (nthCard full 0).suit full (nthCard full 0) 0 0).1
      (findWinnerAux trump (nthCard full 0).suit full (nthCard full 0) 0 0).2 := by
  obtain ⟨c0, rest, rfl⟩ : ∃ c0 rest, full = c0 :: rest := by
    cases full with
    | nil => exact absurd rfl hne
    | cons a l => exact ⟨a, l, rfl⟩
  rw [nthCard_cons_zero, findWinnerAux_first]
  have inv1 : WinInv trump c0.suit (c0 :: rest) 1 c0 0 := by
    refine ⟨Nat.one_pos, nthCard_cons_zero c0 rest, ?_⟩
    by_cases hct : c0.suit = trump
    · refine Or.inl ⟨hct, ?_⟩
      intro j hj _
      have hj0 : j = 0 := by omega
      rw [hj0, nthCard_cons_zero]
    · refine Or.inr ⟨hct, rfl, ?_, ?_⟩
      · intro j hj
        have hj0 : j = 0 := by omega
        rw [hj0, nthCard_cons_zero]
        exact hct
      · intro j hj _
        have hj0 : j = 0 := by omega
        rw [hj0, nthCard_cons_zero]
  exact findWinnerAux_inv trump c0.suit rest (c0 :: rest) 1 c0 0 (by simp) rfl inv1

/-- C1: for a completed trick (4 cards with a play order of equal length),
`DetermineTrickWinner` returns the id of the player, read from the trick play
order at the winning card index, who played a highest-value trump-suit card
when a trump-suit card is in the trick, and otherwise a highest-value card of
the suit of the first card of the trick. -/
theorem determineTrickWinner_spec (g : GameState)
    (h4 : g.currentTrick.length = 4) (ho : g.trickPlayOrder.length = 4) :
    ((∃ j, j < 4 ∧ (nthCard g.currentTrick j).suit = g.trumpSuit) →
      ∃ i, i < 4 ∧ (nthCard g.currentTrick i).suit = g.trumpSuit ∧
        (∀ j, j < 4 → (nthCard g.currentTrick j).suit = g.trumpSuit →
          (nthCard g.currentTrick j).value ≤ (nthCard g.currentTrick i).value) ∧
        g.determineTrickWinner = (g.trickPlayOrder.getD i defaultPlayer).id) ∧
    ((∀ j, j < 4 → (nthCard g.currentTrick j).suit ≠ g.trumpSuit) →
      ∃ i, i < 4 ∧ (nthCard g.currentTrick i).suit = (nthCard g.currentTrick 0).suit ∧
        (∀ j, j < 4 → (nthCard g.currentTrick j).suit = (nthCard g.currentTrick 0).suit →
          (nthCard g.currentTrick j).value ≤ (nthCard g.currentTrick i).value) ∧
        g.determineTrickWinner = (g.trickPlayOrder.getD i defaultPlayer).id) := by
  have hfne : g.currentTrick ≠ [] := by
    intro h
    rw [h] at h4
    simp at h4
  have hinv := findWinnerAux_full g.trumpSuit g.currentTrick hfne
  set r := findWinnerAux g.trumpSuit (nthCard g.currentTrick 0).suit g.currentTrick
      (nthCard g.currentTrick 0) 0 0 with hr
  obtain ⟨hwi, hwc, hdisj⟩ := hinv
  rw [h4] at hwi hdisj
  have hne2 : ¬(g.currentTrick.length = 0 ∨ g.trickPlayOrder.length ≠ g.currentTrick.length) := by
    rw [h4, ho]
    simp
  have hdw : g.determineTrickWinner = (g.trickPlayOrder.getD r.2 defaultPlayer).id := by
    simp only [GameState.determineTrickWinner, if_neg hne2]
    rw [← hr, if_pos (by rw [ho]; exact hwi)]
  constructor
  · intro hex
    rcases hdisj with ⟨hwt, hmax⟩ | ⟨_, _, hn3, _⟩
    · refine ⟨r.2, hwi, by rw [hwc]; exact hwt, ?_, hdw⟩
      intro j hj hjt
      rw [hwc]
      exact hmax j hj hjt
    · obtain ⟨j, hj, hjt⟩ := hex
      exact absurd hjt (hn3 j hj)
  · intro hall
    rcases hdisj with ⟨hwt, _⟩ | ⟨_, hn2, _, hn4⟩
    · exact absurd (by rw [hwc]; exact hwt) (hall r.2 hwi)
    · refine ⟨r.2, hwi, by rw [hwc]; exact hn2, ?_, hdw⟩
      intro j hj hjl
      rw [hwc]
      exact hn4 j hj hjl

def gC1 : GameState :=
  { newGame with
      trumpSuit := "spades",
      currentTrick :=
        [{ suit := "hearts", rank := "2", value := 2 },
         { suit := "spades", rank := "K", value := 13 },
         { suit := "hearts", rank := "5", value := 5 },
         { suit := "hearts", rank := "A", value := 14 }],
      trickPlayOrder :=
        [{ defaultPlayer with id := "a" }, { defaultPlayer with id := "b" },
         { defaultPlayer with id := "c" }, { defaultPlayer with id := "d" }] }

/-- Witness for `determineTrickWinner_spec`: with trump spades, the king of
spades beats the ace of hearts and the winner is the second player in play
order. -/
theorem determineTrickWinner_spec_witness :
    ∃ i, i < 4 ∧ (nthCard gC1.currentTrick i).suit = gC1.trumpSuit ∧
      (∀ j, j < 4 → (nthCard gC1.currentTrick j).suit = gC1.trumpSuit →
        (nthCard gC1.currentTrick j).value ≤ (nthCard gC1.currentTrick i).value) ∧
      gC1.determineTrickWinner = (gC1.trickPlayOrder.getD i defaultPlayer).id :=
  (determineTrickWinner_spec gC1 rfl rfl).1 ⟨1, by decide, by decide⟩

/-! ## C8: trick / play-order length invariant -/

/-- Game states reachable from a trick boundary (both trick lists empty, as
after NewGame or ResetTrick) by any sequence of valid plays and trick
resets. -/
inductive ReachableTrickState : GameState → Prop where
  | start (g : GameState) (h1 : g.currentTrick = []) (h2 : g.trickPlayOrder = []) :
      ReachableTrickState g
  | play (g g2 : GameState) (pid : String) (card : Card)
      (hg : ReachableTrickState g) (hp : g.playCard pid card = Except.ok g2) :
      ReachableTrickState g2
  | reset (g : GameState) (hg : ReachableTrickState g) :
      ReachableTrickState g.resetTrick

/-- C8: in every game state reachable by valid plays and trick resets, the
current trick and the trick play order have the same length (so the
positional correspondence used by DetermineTrickWinner never breaks). -/
theorem trick_playOrder_length_invariant (g : GameState) (hg : ReachableTrickState g) :
    g.currentTrick.length = g.trickPlayOrder.length := by
  induction hg with
  | start g h1 h2 => rw [h1, h2]; rfl
  | play g g2 pid card hg hp ih =>
    unfold GameState.playCard at hp
    by_cases h1 : g.players.length = 0
    · rw [if_pos h1] at hp
      exact absurd hp (by simp)
    rw [if_neg h1] at hp
    by_cases h2 : (g.players.getD g.currentPlayerIndex.toNat defaultPlayer).id ≠ pid
    · rw [if_pos h2] at hp
      exact absurd hp (by simp)
    rw [if_neg h2] at hp
    by_cases h3 : g.validateCardPlay pid card = false
    · rw [if_pos h3] at hp
      exact absurd hp (by simp)
    rw [if_neg h3] at hp
    injection hp with h
    subst h
    simp [List.length_append, ih]
  | reset g hg ih => simp [GameState.resetTrick]

def gC8 : GameState := { newGame with players := [witPlayerA, witPlayerB] }

/-- Witness for `trick_playOrder_length_invariant` at a concrete reachable
state. -/
theorem trick_playOrder_length_invariant_witness :
    gC8.currentTrick.length = gC8.trickPlayOrder.length :=
  trick_playOrder_length_invariant gC8 (ReachableTrickState.start gC8 rfl rfl)

/-! ## C6: rejected plays do not mutate the state -/

/-- C6: every rejected play attempt leaves the game state unchanged: a
payload that is not a card object, an invalid suit, rank or value, and any
PlayCard error (wrong turn, card not in hand, failure to follow the led
suit) all make the play_card handler return without applying anything. -/
theorem rejected_play_no_mutation (shuffle : List Card → List Card) (g : GameState)
    (pid s r : String) (v : Int) (e : String) :
    processPlayCard shuffle g pid MsgData.malformed = g ∧
    processPlayCard shuffle g pid (MsgData.str s) = g ∧
    processPlayCard shuffle g pid MsgData.empty = g ∧
    (isValidSuit s = false → processPlayCard shuffle g pid (MsgData.card s r v) = g) ∧
    (isValidRank r = false → processPlayCard shuffle g pid (MsgData.card s r v) = g) ∧
    (isValidValue r v = false → processPlayCard shuffle g pid (MsgData.card s r v) = g) ∧
    (g.playCard pid { suit := s, rank := r, value := v } = Except.error e →
      processPlayCard shuffle g pid (MsgData.card s r v) = g) := by
  refine ⟨rfl, rfl, rfl, ?_, ?_, ?_, ?_⟩
  · intro h
    simp [processPlayCard, h]
  · intro h
    by_cases hs : isValidSuit s = false <;> simp [processPlayCard, hs, h]
  · intro h
    by_cases hs : isValidSuit s = false
    · simp [processPlayCard, hs]
    by_cases hr : isValidRank r = false <;> simp [processPlayCard, hs, hr, h]
  · intro hp
    by_cases hs : isValidSuit s = false
    · simp [processPlayCard, hs]
    by_cases hr : isValidRank r = false
    · simp [processPlayCard, hs, hr]
    by_cases hv : isValidValue r v = false
    · simp [processPlayCard, hs, hr, hv]
    simp [processPlayCard, hs, hr, hv, hp]

/-- Witness for `rejected_play_no_mutation`: a wrong-turn play is rejected
with no state change. -/
theorem rejected_play_no_mutation_witness :
    processPlayCard id gC2 "2" (MsgData.card "hearts" "2" 2) = gC2 :=
  (rejected_play_no_mutation id gC2 "2" "hearts" "2" 2
      "it is not your turn").2.2.2.2.2.2 rfl

/-! ## Executing the trick-completion block -/

theorem updateScores_trumpPlayerRef (g : GameState) (t : String) (n : Nat) :
    (g.updateScores t n).trumpPlayerRef = g.trumpPlayerRef := rfl

theorem setLeadToWinner_roundScores (g : GameState) (ps : List Player) (w : String) :
    (setLeadToWinner g ps w).roundScores = g.roundScores := by
  unfold setLeadToWinner
  cases firstIdxById ps w <;> rfl

theorem resolveRoundEnd_roundScores (shuffle : List Card → List Card) (g : GameState) :
    (resolveRoundEnd shuffle g).roundScores = (awardRoundPoints g).roundScores := by
  simp only [resolveRoundEnd]
  by_cases h : 7 ≤ (awardRoundPoints g).roundScores "team1" ∨
      7 ≤ (awardRoundPoints g).roundScores "team2"
  · rw [if_pos h]
  · rw [if_neg h]
    rfl

theorem resolveRoundEnd_isGameOver (shuffle : List Card → List Card) (g : GameState) :
    (resolveRoundEnd shuffle g).isGameOver =
      (if 7 ≤ (awardRoundPoints g).roundScores "team1" ∨
          7 ≤ (awardRoundPoints g).roundScores "team2" then true else g.isGameOver) := by
  simp only [resolveRoundEnd]
  by_cases h : 7 ≤ (awardRoundPoints g).roundScores "team1" ∨
      7 ≤ (awardRoundPoints g).roundScores "team2"
  · rw [if_pos h, if_pos h]
  · rw [if_neg h, if_neg h]
    rfl

/-- Symbolic execution of `afterTrickCheck` for a completing trick whose
winner was found with a non-empty team. -/
theorem afterTrickCheck_eq (shuffle : List Card → List Card) (g : GameState) (wp : Player)
    (hcomp : g.currentTrick.length = g.players.length)
    (hwin : findPlayerById g.players g.determineTrickWinner = some wp)
    (hne : ¬ wp.team = "") :
    afterTrickCheck shuffle g =
      if 2 ≤ (g.updateScores wp.team 1).scores "team1" ∨
          2 ≤ (g.updateScores wp.team 1).scores "team2" then
        resolveRoundEnd shuffle (g.updateScores wp.team 1)
      else
        (setLeadToWinner (g.updateScores wp.team 1) g.players
            g.determineTrickWinner).resetTrick := by
  have hwt : winningTeamOf g.players g.determineTrickWinner = wp.team := by
    unfold winningTeamOf
    rw [hwin]
  simp only [afterTrickCheck, hwt]
  rw [if_pos hcomp, if_neg hne]

/-! ## C9: the trick winner leads the next trick -/

/-- C9: when a trick completes (trick length equals player count) and neither
trick-tally has reached 2 after crediting the winner, the current-player
index becomes the winner's position in the player list and both the trick
and the play order are reset to empty. -/
theorem trickComplete_winner_leads (shuffle : List Card → List Card) (g : GameState)
    (wp : Player) (i : Nat)
    (hcomp : g.currentTrick.length = g.players.length)
    (hwin : findPlayerById g.players g.determineTrickWinner = some wp)
    (hne : ¬ wp.team = "")
    (hidx : firstIdxById g.players g.determineTrickWinner = some i)
    (hlow1 : (g.updateScores wp.team 1).scores "team1" < 2)
    (hlow2 : (g.updateScores wp.team 1).scores "team2" < 2) :
    (afterTrickCheck shuffle g).currentPlayerIndex = (i : Int) ∧
    (afterTrickCheck shuffle g).currentTrick = [] ∧
    (afterTrickCheck shuffle g).trickPlayOrder = [] := by
  rw [afterTrickCheck_eq shuffle g wp hcomp hwin hne]
  rw [if_neg (by omega)]
  unfold setLeadToWinner
  rw [hidx]
  exact ⟨rfl, rfl, rfl⟩

/-! ## C3: round end and round points -/

/-- C3: a round ends at a trick completion exactly when a team trick-tally
reaches 2, and the round points credited to the winning team round-tally are
2 when the winning team is the trump chooser team with the loser at 0, 3
when the winning team is the team opposite the trump chooser with the loser
at 0, and 1 otherwise; the other team round-tally is unchanged. -/
theorem roundEnd_scoring (shuffle : List Card → List Card) (g : GameState) (wp tp : Player)
    (hcomp : g.currentTrick.length = g.players.length)
    (hwin : findPlayerById g.players g.determineTrickWinner = some wp)
    (hteamW : wp.team = "team1" ∨ wp.team = "team2")
    (htp : g.trumpPlayerRef = tp)
    (hteamT : tp.team = "team1" ∨ tp.team = "team2")
    (hpre1 : g.scores "team1" ≤ 1) (hpre2 : g.scores "team2" ≤ 1) :
    ((g.updateScores wp.team 1).scores "team1" < 2 →
     (g.updateScores wp.team 1).scores "team2" < 2 →
      (afterTrickCheck shuffle g).roundScores = g.roundScores) ∧
    (2 ≤ (g.updateScores wp.team 1).scores wp.team →
      ((g.scores (getOppositeTeam wp.team) = 0 → wp.team = tp.team →
         (afterTrickCheck shuffle g).roundScores wp.team = g.roundScores wp.team + 2) ∧
       (g.scores (getOppositeTeam wp.team) = 0 → wp.team = getOppositeTeam tp.team →
         (afterTrickCheck shuffle g).roundScores wp.team = g.roundScores wp.team + 3) ∧
       (g.scores (getOppositeTeam wp.team) ≠ 0 →
         (afterTrickCheck shuffle g).roundScores wp.team = g.roundScores wp.team + 1) ∧
       (afterTrickCheck shuffle g).roundScores (getOppositeTeam wp.team) =
         g.roundScores (getOppositeTeam wp.team))) := by
  have hne : ¬ wp.team = "" := by
    rcases hteamW with h | h <;> simp [h]
  rw [afterTrickCheck_eq shuffle g wp hcomp hwin hne]
  constructor
  · intro h1 h2
    rw [if_neg (by omega)]
    rw [show ∀ x : GameState, x.resetTrick.roundScores = x.roundScores from fun _ => rfl,
        setLeadToWinner_roundScores]
    rfl
  · intro hthr
    have hup : ∀ t, (g.updateScores wp.team 1).scores t =
        (if t = wp.team then g.scores t + 1 else g.scores t) := fun t => rfl
    have hcond : 2 ≤ (g.updateScores wp.team 1).scores "team1" ∨
        2 ≤ (g.updateScores wp.team 1).scores "team2" := by
      rcases hteamW with h | h
      · left; rw [← h]; exact hthr
      · right; rw [← h]; exact hthr
    rw [if_pos hcond, resolveRoundEnd_roundScores]
    have htpteam : (g.updateScores wp.team 1).trumpPlayerRef.team = tp.team := by
      rw [updateScores_trumpPlayerRef, htp]
    have hrw : roundWinnerOf (g.updateScores wp.team 1) = wp.team := by
      unfold roundWinnerOf
      rcases hteamW with h | h
      · rw [if_pos (by rw [← h]; exact hthr), h]
      · have e1 : (g.updateScores wp.team 1).scores "team1" = g.scores "team1" := by
          rw [hup "team1", if_neg (by rw [h]; decide)]
        rw [if_neg (by rw [e1]; omega), h]
    have hlose : losingScoreOf (g.updateScores wp.team 1) =
        g.scores (getOppositeTeam wp.team) := by
      unfold losingScoreOf
      rcases hteamW with h | h
      · have e2 : (g.updateScores wp.team 1).scores "team2" = g.scores "team2" := by
          rw [hup "team2", if_neg (by rw [h]; decide)]
        rw [if_pos (by rw [← h]; exact hthr), e2, h]
        simp [getOppositeTeam]
      · have e1 : (g.updateScores wp.team 1).scores "team1" = g.scores "team1" := by
          rw [hup "team1", if_neg (by rw [h]; decide)]
        rw [if_neg (by rw [e1]; omega), e1, h]
        simp [getOppositeTeam]
    have haward : ∀ t, (awardRoundPoints (g.updateScores wp.team 1)).roundScores t =
        (if t = wp.team then
          g.roundScores t + roundPoints tp.team wp.team (g.scores (getOppositeTeam wp.team))
        else g.roundScores t) := by
      intro t
      unfold awardRoundPoints
      simp only [hrw, hlose, htpteam]
      rfl
    have hopp_ne : getOppositeTeam wp.team ≠ wp.team := by
      rcases hteamW with h | h <;> rw [h] <;> simp [getOppositeTeam]
    refine ⟨?_, ?_, ?_, ?_⟩
    · intro h0 heq
      rw [haward, if_pos rfl]
      unfold roundPoints
      rw [if_pos ⟨h0, heq⟩]
    · intro h0 heq
      have hneq : wp.team ≠ tp.team := by
        rcases hteamT with h | h <;> rw [h] at heq ⊢ <;> rw [heq] <;> simp [getOppositeTeam]
      rw [haward, if_pos rfl]
      unfold roundPoints
      rw [if_neg (by intro hb; exact hneq hb.2), if_pos ⟨h0, heq⟩]
    · intro h0
      rw [haward, if_pos rfl]
      unfold roundPoints
      rw [if_neg (by intro hb; exact h0 hb.1), if_neg (by intro hb; exact h0 hb.1)]
    · rw [haward, if_neg hopp_ne]

def p1C3 : Player :=
  { id := "1", name := "P1", team := "team2", hand := [], connected := true, index := 0 }
def p2C3 : Player :=
  { id := "2", name := "P2", team := "team1", hand := [], connected := true, index := 1 }
def p3C3 : Player :=
  { id := "3", name := "P3", team := "team2", hand := [], connected := true, index := 2 }
def p4C3 : Player :=
  { id := "4", name := "P4", team := "team1", hand := [], connected := true, index := 3 }

def gC3 : GameState :=
  { newGame with
      players := [p1C3, p2C3, p3C3, p4C3],
      trumpPlayerId := some "3",
      trumpSuit := "spades",
      currentTrick :=
        [{ suit := "hearts", rank := "2", value := 2 },
         { suit := "spades", rank := "K", value := 13 },
         { suit := "hearts", rank := "5", value := 5 },
         { suit := "hearts", rank := "A", value := 14 }],
      trickPlayOrder := [p1C3, p2C3, p3C3, p4C3],
      scores := fun t => if t = "team1" then 1 else 0 }

/-- Witness for `roundEnd_scoring`: team1 sweeps the trump team 2-0 and is
credited 3 round points (Trump Kot). -/
theorem roundEnd_scoring_witness :
    (afterTrickCheck id gC3).roundScores "team1" = gC3.roundScores "team1" + 3 := by
  have h := roundEnd_scoring id gC3 p2C3 p3C3 rfl (by decide) (by decide) (by decide)
    (by decide) (by decide) (by decide)
  exact ((h.2 (by decide)).2.1 (by decide) (by decide))

/-! ## C4: match end at seven round points, pause gate afterwards -/

/-- C4: the pause gate of processMessage ignores every action but reconnect
once the game-over flag is set (no state change for play_card, choose_trump
or leave_game), and at a round end the game-over flag is set exactly when a
team round-tally reaches or exceeds 7 after the round points are added. -/
theorem match_end_exactly_at_seven (shuffle : List Card → List Card) :
    (∀ (g : GameState) (player : Player) (action : String) (data : MsgData),
       g.isGameOver = true → action ≠ "reconnect" →
       processMessage shuffle g player action data = g) ∧
    (∀ (g : GameState) (wp : Player),
       g.currentTrick.length = g.players.length →
       findPlayerById g.players g.determineTrickWinner = some wp →
       ¬ wp.team = "" →
       g.isGameOver = false →
       (2 ≤ (g.updateScores wp.team 1).scores "team1" ∨
         2 ≤ (g.updateScores wp.team 1).scores "team2") →
       ((afterTrickCheck shuffle g).isGameOver = true ↔
         7 ≤ (afterTrickCheck shuffle g).roundScores "team1" ∨
         7 ≤ (afterTrickCheck shuffle g).roundScores "team2")) := by
  constructor
  · intro g player action data hgo hact
    unfold processMessage
    by_cases hc : player.connected = false
    · rw [if_pos hc]
    · rw [if_neg hc, if_pos ⟨hgo, hact⟩]
  · intro g wp hcomp hwin hne hgo hthr
    rw [afterTrickCheck_eq shuffle g wp hcomp hwin hne, if_pos hthr,
        resolveRoundEnd_isGameOver, resolveRoundEnd_roundScores]
    by_cases hc : 7 ≤ (awardRoundPoints (g.updateScores wp.team 1)).roundScores "team1" ∨
        7 ≤ (awardRoundPoints (g.updateScores wp.team 1)).roundScores "team2"
    · rw [if_pos hc]
      exact ⟨fun _ => hc, fun _ => rfl⟩
    · rw [if_neg hc]
      constructor
      · intro h
        rw [show (g.updateScores wp.team 1).isGameOver = g.isGameOver from rfl, hgo] at h
        exact absurd h (by simp)
      · intro h
        exact absurd h hc

/-! ## C5: trump-chooser rotation between rounds -/

theorem findPlayerById_id (ps : List Player) (pid : String) (p : Player)
    (h : findPlayerById ps pid = some p) : p.id = pid := by
  induction ps with
  | nil => exact absurd h (by simp [findPlayerById])
  | cons q qs ih =>
    unfold findPlayerById at h
    by_cases hq : q.id = pid
    · rw [if_pos hq] at h
      injection h with h2
      rw [← h2]
      exact hq
    · rw [if_neg hq] at h
      exact ih h

theorem findPlayerById_clearHands (ps : List Player) (pid : String) :
    findPlayerById (clearHands ps) pid =
      (findPlayerById ps pid).map fun p => { p with hand := [] } := by
  induction ps with
  | nil => rfl
  | cons p qs ih =>
    unfold clearHands at ih ⊢
    rw [List.map_cons]
    by_cases h : p.id = pid
    · simp [findPlayerById, h]
    · simp only [findPlayerById, h, if_false, if_neg h]
      exact ih

theorem firstIdxById_clearHands (ps : List Player) (pid : String) :
    firstIdxById (clearHands ps) pid = firstIdxById ps pid := by
  induction ps with
  | nil => rfl
  | cons p qs ih =>
    unfold clearHands at ih ⊢
    rw [List.map_cons]
    by_cases h : p.id = pid
    · simp [firstIdxById, h]
    · simp only [firstIdxById, h, if_false, if_neg h, ih]

theorem firstIdxById_lt_length (ps : List Player) (pid : String) (k : Nat)
    (h : firstIdxById ps pid = some k) : k < ps.length := by
  induction ps generalizing k with
  | nil => exact absurd h (by simp [firstIdxById])
  | cons p qs ih =>
    unfold firstIdxById at h
    by_cases hq : p.id = pid
    · rw [if_pos hq] at h
      injection h with h2
      simp [← h2]
    · rw [if_neg hq] at h
      match hk : firstIdxById qs pid with
      | none => rw [hk] at h; exact absurd h (by simp)
      | some m =>
        rw [hk] at h
        injection h with h2
        have := ih m hk
        simp [← h2]
        omega

theorem getD_clearHands_id (ps : List Player) (m : Nat) (hm : m < ps.length) :
    ((clearHands ps).getD m defaultPlayer).id = (ps.getD m defaultPlayer).id := by
  unfold clearHands
  rw [List.getD_eq_getElem _ _ (by simpa using hm), List.getD_eq_getElem _ _ hm,
      List.getElem_map]

/-- C5: on a round restart, the trump-chooser role moves to the seat at the
next index modulo the player count exactly when the round was won by the
team opposite the trump chooser; when the trump chooser team won, the trump
chooser is unchanged. -/
theorem trumpChooser_rotation (shuffle : List Card → List Card) (g : GameState)
    (tid : String) (tp : Player) (k : Nat) (roundWinner : String)
    (htid : g.trumpPlayerId = some tid)
    (hfind : findPlayerById g.players tid = some tp)
    (hidx : firstIdxById g.players tid = some k)
    (hn : 0 < g.players.length) :
    (roundWinner = getOppositeTeam tp.team →
      (restartGameForNextRound shuffle g roundWinner).trumpPlayerId =
        some ((g.players.getD ((k + 1) % g.players.length) defaultPlayer).id)) ∧
    (roundWinner ≠ getOppositeTeam tp.team →
      (restartGameForNextRound shuffle g roundWinner).trumpPlayerId = some tid) := by
  have htpid : tp.id = tid := findPlayerById_id g.players tid tp hfind
  have hclear : findPlayerById (clearHands g.players) tid =
      some { tp with hand := [] } := by
    rw [findPlayerById_clearHands, hfind]
    rfl
  have hmain : (restartGameForNextRound shuffle g roundWinner).trumpPlayerId =
      rotatedTrumpId (clearHands g.players) { tp with hand := [] } roundWinner
        (some tid) := by
    simp only [restartGameForNextRound, GameState.trumpPlayerRef, htid, hclear,
      Option.getD_some]
  rw [hmain]
  unfold rotatedTrumpId
  constructor
  · intro hrw2
    rw [if_pos hrw2]
    have hiq : indexOfPlayerId (clearHands g.players)
        (Player.id { tp with hand := [] }) = (k : Int) := by
      show indexOfPlayerId (clearHands g.players) tp.id = (k : Int)
      rw [htpid]
      unfold indexOfPlayerId
      rw [firstIdxById_clearHands, hidx]
    rw [hiq]
    show some ((clearHands g.players).getD
        (((k : Int) + 1) % ((clearHands g.players).length : Int)).toNat
        defaultPlayer).id =
      some ((g.players.getD ((k + 1) % g.players.length) defaultPlayer).id)
    have hlen : (clearHands g.players).length = g.players.length := by
      unfold clearHands
      exact List.length_map _ _
    have hmod : (((k : Int) + 1) % ((clearHands g.players).length : Int)).toNat =
        (k + 1) % g.players.length := by
      rw [hlen]
      have h1 : (k : Int) + 1 = ((k + 1 : Nat) : Int) := by push_cast; ring
      rw [h1, ← Int.ofNat_emod, Int.toNat_natCast]
    rw [hmod, getD_clearHands_id g.players _ (Nat.mod_lt _ hn)]
  · intro hrw2
    rw [if_neg hrw2]

def gC4 : GameState := { gC3 with isGameOver := true }

/-- Witness for `match_end_exactly_at_seven`: once the game-over flag is set,
a play_card message leaves the state untouched. -/
theorem match_end_exactly_at_seven_witness :
    processMessage id gC4 p1C3 "play_card" MsgData.empty = gC4 :=
  (match_end_exactly_at_seven id).1 gC4 p1C3 "play_card" MsgData.empty rfl (by decide)

/-- Witness for `trumpChooser_rotation`: the trump chooser sits at index 2,
the opposite team wins the round, and the role moves to index 3. -/
theorem trumpChooser_rotation_witness :
    (restartGameForNextRound id gC3 "team1").trumpPlayerId =
      some ((gC3.players.getD ((2 + 1) % gC3.players.length) defaultPlayer).id) :=
  (trumpChooser_rotation id gC3 "3" p3C3 2 "team1" rfl (by decide) (by decide)
    (by decide)).1 (by decide)

/-- Witness for `trickComplete_winner_leads`: the king of spades wins the
first trick of a round and its player (index 1) leads the next trick. -/
theorem trickComplete_winner_leads_witness :
    (afterTrickCheck id { gC3 with scores := fun _ => 0 }).currentPlayerIndex = (1 : Int) ∧
    (afterTrickCheck id { gC3 with scores := fun _ => 0 }).currentTrick = [] ∧
    (afterTrickCheck id { gC3 with scores := fun _ => 0 }).trickPlayOrder = [] :=
  trickComplete_winner_leads id { gC3 with scores := fun _ => 0 } p2C3 1 rfl (by decide)
    (by decide) (by decide) (by decide) (by decide)

/-! ## C7: seating parity and replacement restoration -/

theorem insertByIndex_mem (p q : Player) (l : List Player) :
    q ∈ insertByIndex p l ↔ q = p ∨ q ∈ l := by
  induction l with
  | nil => simp [insertByIndex]
  | cons a l ih =>
    unfold insertByIndex
    by_cases h : p.index < a.index
    · rw [if_pos h]
      simp
    · rw [if_neg h]
      simp [ih]
      tauto

theorem sortByIndex_mem (q : Player) (l : List Player) :
    q ∈ sortByIndex l ↔ q ∈ l := by
  induction l with
  | nil => simp [sortByIndex]
  | cons a l ih =>
    unfold sortByIndex
    rw [insertByIndex_mem]
    simp [ih]

/-- C7: a normally seated player is assigned team2 when the assigned seat
index is even and team1 when it is odd, and after an explicit leave the
replacement player is rebuilt with exactly the saved team, seat index, hand
and id of the departed player and joins the room player list. -/
theorem seating_and_replacement :
    (∀ (room : Room) (pid name : String),
       (((registerNewPlayer room pid name).1.index % 2 = 0 →
          (registerNewPlayer room pid name).1.team = "team2") ∧
        ((registerNewPlayer room pid name).1.index % 2 ≠ 0 →
          (registerNewPlayer room pid name).1.team = "team1"))) ∧
    (∀ (room : Room) (q : Player) (counter : Nat),
       ∃ p, (handleReplacement (room.handlePlayerLeave q) (savedDataOf room q)
              counter).1 = some p ∧
         p.team = q.team ∧ p.index = q.index ∧ p.hand = q.hand ∧ p.id = q.id ∧
         p ∈ (handleReplacement (room.handlePlayerLeave q) (savedDataOf room q)
              counter).2.players) := by
  constructor
  · intro room pid name
    constructor
    · intro h
      simp only [registerNewPlayer] at h ⊢
      unfold determineTeam
      rw [if_pos (by omega)]
    · intro h
      simp only [registerNewPlayer] at h ⊢
      unfold determineTeam
      rw [if_neg (by omega)]
  · intro room q counter
    have hid : (room.handlePlayerLeave q).id = (savedDataOf room q).roomId := rfl
    refine ⟨{ id := q.id, name := "Player" ++ toString (counter + 1), team := q.team,
              hand := q.hand, connected := true, index := q.index }, ?_, rfl, rfl, rfl,
            rfl, ?_⟩
    · unfold handleReplacement
      rw [if_neg (fun h => h hid)]
      rfl
    · unfold handleReplacement
      rw [if_neg (fun h => h hid)]
      show _ ∈ sortByIndex _
      rw [sortByIndex_mem]
      simp [savedDataOf]

def roomC7 : Room :=
  { id := "r1", players := [p1C3, p2C3], gamePlayers := [p1C3, p2C3],
    savedPlayers := fun _ => none, isGameOver := false }

/-- Witness for `seating_and_replacement`: the third seat (index 2, even) is
put on team2. -/
theorem seating_and_replacement_witness :
    (registerNewPlayer roomC7 "9" "P9").1.team = "team2" :=
  (seating_and_replacement.1 roomC7 "9" "P9").1 (by decide)

/-! ## C10: the remainder deal after choose_trump -/

/-- C10: after a valid choose_trump completes the full remainder deal
(5 cards each to the three non-choosers on top of cleared hands, then 4 and
again 4 cards to all four players, on top of the trump chooser's initial 5),
every player holds exactly 13 cards, the deck is empty, and the
current-player index is the trump chooser's position, so the trump chooser
leads the round's first trick. -/
theorem chooseTrump_deal_complete (g : GameState) (p0 p1 p2 p3 : Player)
    (tid suit : String) (k : Nat)
    (hps : g.players = [p0, p1, p2, p3])
    (hnd : (g.players.map fun p => p.id).Nodup)
    (htid : g.trumpPlayerId = some tid)
    (hk : k < 4)
    (hkid : (g.players.getD k defaultPlayer).id = tid)
    (hhand : (g.players.getD k defaultPlayer).hand.length = 5)
    (hdeck : g.deck.length = 47) :
    (processChooseTrump g tid suit).players.length = 4 ∧
    (∀ p ∈ (processChooseTrump g tid suit).players, p.hand.length = 13) ∧
    (processChooseTrump g tid suit).deck = [] ∧
    (processChooseTrump g tid suit).currentPlayerIndex = (k : Int) := by
  rw [hps] at hnd hkid hhand
  simp only [List.map_cons, List.map_nil, List.nodup_cons, List.mem_cons,
    List.mem_singleton, List.not_mem_nil, List.mem_map] at hnd
  interval_cases k
  · simp only [List.getD_cons_zero] at hkid hhand
    have hA : p1.id ≠ tid := fun h => hnd.1 (Or.inl (hkid.trans h.symm))
    have hB : p2.id ≠ tid := fun h => hnd.1 (Or.inr (Or.inl (hkid.trans h.symm)))
    have hC : p3.id ≠ tid := fun h => hnd.1 (Or.inr (Or.inr (Or.inl (hkid.trans h.symm))))
    have hfind : findPlayerById g.players tid = some p0 := by
      rw [hps]
      simp [findPlayerById, hkid]
    have htp : g.trumpPlayerRef = p0 := by
      unfold GameState.trumpPlayerRef
      rw [htid]
      show (findPlayerById g.players tid).getD defaultPlayer = p0
      rw [hfind]
      rfl
    unfold processChooseTrump
    rw [htp, if_neg (fun h => h hkid.symm)]
    simp only [hps, hkid, List.map_cons, List.map_nil]
    simp only [dealBatchSkip, dealBatchAll, hA, hB, hC, hkid, if_neg, if_pos, ite_true,
      ite_false, if_true, if_false, ne_eq, not_true, not_false_iff, List.nil_append]
    refine ⟨by simp, ?_, ?_, ?_⟩
    · intro p hp
      simp only [List.mem_cons, List.not_mem_nil, or_false] at hp
      rcases hp with rfl | rfl | rfl | rfl <;>
        simp [List.length_append, List.length_take, List.length_drop, hdeck, hhand]
    · simp only [List.drop_drop]
      exact List.drop_eq_nil_of_le (by omega)
    · simp [indexOfPlayerId, firstIdxById, hA, hB, hC]
  · simp only [List.getD_cons_succ, List.getD_cons_zero] at hkid hhand
    have hA : p0.id ≠ tid := fun h => hnd.1 (Or.inl (h.trans hkid.symm))
    have hB : p2.id ≠ tid := fun h => hnd.2.1 (Or.inl (hkid.trans h.symm))
    have hC : p3.id ≠ tid := fun h => hnd.2.1 (Or.inr (Or.inl (hkid.trans h.symm)))
    have hfind : findPlayerById g.players tid = some p1 := by
      rw [hps]
      simp [findPlayerById, hA, hkid]
    have htp : g.trumpPlayerRef = p1 := by
      unfold GameState.trumpPlayerRef
      rw [htid]
      show (findPlayerById g.players tid).getD defaultPlayer = p1
      rw [hfind]
      rfl
    unfold processChooseTrump
    rw [htp, if_neg (fun h => h hkid.symm)]
    simp only [hps, hkid, List.map_cons, List.map_nil]
    simp only [dealBatchSkip, dealBatchAll, hA, hB, hC, hkid, if_neg, if_pos, ite_true,
      ite_false, if_true, if_false, ne_eq, not_true, not_false_iff, List.nil_append]
    refine ⟨by simp, ?_, ?_, ?_⟩
    · intro p hp
      simp only [List.mem_cons, List.not_mem_nil, or_false] at hp
      rcases hp with rfl | rfl | rfl | rfl <;>
        simp [List.length_append, List.length_take, List.length_drop, hdeck, hhand]
    · simp only [List.drop_drop]
      exact List.drop_eq_nil_of_le (by omega)
    · simp [indexOfPlayerId, firstIdxById, hA, hB, hC]
  · simp only [List.getD_cons_succ, List.getD_cons_zero] at hkid hhand
    have hA : p0.id ≠ tid := fun h => hnd.1 (Or.inr (Or.inl (h.trans hkid.symm)))
    have hB : p1.id ≠ tid := fun h => hnd.2.1 (Or.inl (h.trans hkid.symm))
    have hC : p3.id ≠ tid := fun h => hnd.2.2.1 (Or.inl (hkid.trans h.symm))
    have hfind : findPlayerById g.players tid = some p2 := by
      rw [hps]
      simp [findPlayerById, hA, hB, hkid]
    have htp : g.trumpPlayerRef = p2 := by
      unfold GameState.trumpPlayerRef
      rw [htid]
      show (findPlayerById g.players tid).getD defaultPlayer = p2
      rw [hfind]
      rfl
    unfold processChooseTrump
    rw [htp, if_neg (fun h => h hkid.symm)]
    simp only [hps, hkid, List.map_cons, List.map_nil]
    simp only [dealBatchSkip, dealBatchAll, hA, hB, hC, hkid, if_neg, if_pos, ite_true,
      ite_false, if_true, if_false, ne_eq, not_true, not_false_iff, List.nil_append]
    refine ⟨by simp, ?_, ?_, ?_⟩
    · intro p hp
      simp only [List.mem_cons, List.not_mem_nil, or_false] at hp
      rcases hp with rfl | rfl | rfl | rfl <;>
        simp [List.length_append, List.length_take, List.length_drop, hdeck, hhand]
    · simp only [List.drop_drop]
      exact List.drop_eq_nil_of_le (by omega)
    · simp [indexOfPlayerId, firstIdxById, hA, hB, hC]
  · simp only [List.getD_cons_succ, List.getD_cons_zero] at hkid hhand
    have hA : p0.id ≠ tid := fun h => hnd.1 (Or.inr (Or.inr (Or.inl (h.trans hkid.symm))))
    have hB : p1.id ≠ tid := fun h => hnd.2.1 (Or.inr (Or.inl (h.trans hkid.symm)))
    have hC : p2.id ≠ tid := fun h => hnd.2.2.1 (Or.inl (h.trans hkid.symm))
    have hfind : findPlayerById g.players tid = some p3 := by
      rw [hps]
      simp [findPlayerById, hA, hB, hC, hkid]
    have htp : g.trumpPlayerRef = p3 := by
      unfold GameState.trumpPlayerRef
      rw [htid]
      show (findPlayerById g.players tid).getD defaultPlayer = p3
      rw [hfind]
      rfl
    unfold processChooseTrump
    rw [htp, if_neg (fun h => h hkid.symm)]
    simp only [hps, hkid, List.map_cons, List.map_nil]
    simp only [dealBatchSkip, dealBatchAll, hA, hB, hC, hkid, if_neg, if_pos, ite_true,
      ite_false, if_true, if_false, ne_eq, not_true, not_false_iff, List.nil_append]
    refine ⟨by simp, ?_, ?_, ?_⟩
    · intro p hp
      simp only [List.mem_cons, List.not_mem_nil, or_false] at hp
      rcases hp with rfl | rfl | rfl | rfl <;>
        simp [List.length_append, List.length_take, List.length_drop, hdeck, hhand]
    · simp only [List.drop_drop]
      exact List.drop_eq_nil_of_le (by omega)
    · simp [indexOfPlayerId, firstIdxById, hA, hB, hC]

def p3C10 : Player := { p3C3 with hand := newDeck.take 5 }

def gC10 : GameState :=
  { newGame with
      players := [p1C3, p2C3, p3C10, p4C3],
      trumpPlayerId := some "3",
      deck := newDeck.drop 5 }

/-- Witness for `chooseTrump_deal_complete`: the trump chooser at index 2
picks hearts; the deck empties and the lead is at index 2. -/
theorem chooseTrump_deal_complete_witness :
    (processChooseTrump gC10 "3" "hearts").deck = [] ∧
    (processChooseTrump gC10 "3" "hearts").currentPlayerIndex = (2 : Int) :=
  ⟨(chooseTrump_deal_complete gC10 p1C3 p2C3 p3C10 p4C3 "3" "hearts" 2 rfl
      (by decide) rfl (by decide) (by decide) (by decide) (by decide)).2.2.1,
   (chooseTrump_deal_complete gC10 p1C3 p2C3 p3C10 p4C3 "3" "hearts" 2 rfl
      (by decide) rfl (by decide) (by decide) (by decide) (by decide)).2.2.2⟩
